import Mathlib

/-!
Verification of the filter-condition construction and evaluation engine of
the Data-Cleaning-App repository (`src/data_cleaning_app.py`), together with
the search-and-replace counter and the IQR outlier-capping step.

Modelling conventions (shallow embedding):
* A table is an ordered list of named columns; a column is either numeric
  (exact rationals stand in for the floating-point values; every property
  proved here is an order/equality property preserved by this reading) or
  textual.  Null cells, datetime and categorical columns are outside the
  modelled fragment: no claim below needs them.
* The condition builder (`buildCond`, `buildCmpString`) mirrors lines
  203-224 of the source: `in`/`not in` operands are split on commas by
  `value.split(',')` (modelled by `pySplit`, which like Python performs no
  trimming), `contains`/`not contains` become `.str.<method>('value')`
  (note the source really emits the two-word method name `not contains`),
  and every other operator embeds the operand as a quoted string literal
  `'value'` whatever the column type.
* Evaluation (`evalCond`, `evaluate`) mirrors what `DataFrame.query` does
  with the built predicate (lines 226-242): an unknown column raises
  `UndefinedVariableError`; an ordered comparison between a numeric column
  and a string literal raises `TypeError` while `==`/`!=` compare unequal
  elementwise; `in`/`not in` are elementwise membership (string members
  never equal numeric cells); `.str.contains` is a case-sensitive regular
  expression search and raises `AttributeError` on a numeric column; the
  text `.str.not contains(...)` is a syntax error of the query language.
  Any raised error is caught by the caller, reported, and the table is
  returned unchanged.  The modelled regular-expression fragment is patterns
  built from literal characters and the `.` wildcard (`patMatch`).
* `str.replace(search, replace, regex=False)` is Python literal
  replacement (`pyReplace`, including the empty-search insertion
  behaviour); `str.count(pat)` counts non-overlapping regex matches
  (`reCount`); `Series.quantile` is linear interpolation on the sorted
  values (`quantile`); `clip` is `min (max x lo) hi`.
-/

namespace DataCleaning

/-- A column of the in-memory table: declared-numeric values or text. -/
inductive ColData where
  | num (vals : List ℚ)
  | str (vals : List String)
deriving DecidableEq

/-- A table: ordered, named, typed columns (rows are positional). -/
abbrev Table := List (String × ColData)

/-- Number of cells in a column. -/
def colLen : ColData → Nat
  | .num vs => vs.length
  | .str vs => vs.length

/-- Column lookup by name (first match, as in a pandas frame). -/
def lookupCol (t : Table) (col : String) : Option ColData :=
  match t with
  | [] => none
  | (n, c) :: rest => if n = col then some c else lookupCol rest col

/-- Python `s.split(sep)` for a one-character separator: no trimming,
keeps empty fields, `[]` splits to `[[]]`. -/
def pySplit (sep : Char) : List Char → List (List Char)
  | [] => [[]]
  | c :: cs =>
    if c = sep then [] :: pySplit sep cs
    else
      match pySplit sep cs with
      | [] => [[c]]
      | g :: gs => (c :: g) :: gs

/-- `value.split(',')` of the source (line 214), as strings. -/
def pySplitComma (s : String) : List String :=
  (pySplit ',' s.data).map String.mk

/-- Python string `<` : lexicographic comparison by code point. -/
def pyStrLtB : List Char → List Char → Bool
  | [], [] => false
  | [], _ :: _ => true
  | _ :: _, [] => false
  | a :: as, b :: bs =>
    if a.val < b.val then true
    else if b.val < a.val then false
    else pyStrLtB as bs

/-- Match a regex-fragment pattern (literal characters and the `.`
wildcard) at the head of the text; return the remaining text. -/
def patMatch : List Char → List Char → Option (List Char)
  | [], s => some s
  | _ :: _, [] => none
  | p :: ps, c :: cs => if p = '.' ∨ p = c then patMatch ps cs else none

/-- Regex search: does the pattern match at some position of the text? -/
def reSearch (p : List Char) : List Char → Bool
  | [] => (patMatch p []).isSome
  | c :: cs => (patMatch p (c :: cs)).isSome || reSearch p cs

/-- Scan counting non-overlapping matches of a nonempty fixed-length
pattern from the left (the behaviour of `re.findall`). -/
def reCountScan (p : List Char) : List Char → Nat
  | [] => 0
  | c :: cs =>
    match patMatch p (c :: cs) with
    | some r => if h : r.length < cs.length + 1 then 1 + reCountScan p r else 1 + reCountScan p cs
    | none => reCountScan p cs
termination_by s => s.length
decreasing_by
  all_goals simp only [List.length_cons, List.length_drop]
  all_goals omega

/-- `len(re.findall(p, s))`: an empty pattern matches `len + 1` times. -/
def reCount (p s : List Char) : Nat :=
  if p = [] then s.length + 1 else reCountScan p s

/-- Literal-substring scan counting non-overlapping occurrences. -/
def litCountScan (p : List Char) : List Char → Nat
  | [] => 0
  | c :: cs =>
    if h : p.length ≠ 0 then
      if p.isPrefixOf (c :: cs) then 1 + litCountScan p ((c :: cs).drop p.length)
      else litCountScan p cs
    else litCountScan p cs
termination_by s => s.length
decreasing_by
  all_goals simp only [List.length_cons, List.length_drop]
  all_goals omega

/-- Python `s.count(p)` extended with `len + 1` for the empty pattern,
i.e. the number of literal occurrences of `p` in `s`. -/
def countOcc (p s : List Char) : Nat :=
  if p = [] then s.length + 1 else litCountScan p s

/-- Python `s.replace(search, repl)` for nonempty `search`: leftmost
non-overlapping occurrences are replaced. -/
def pyReplaceScan (search repl : List Char) : List Char → List Char
  | [] => []
  | c :: cs =>
    if h : search.length ≠ 0 then
      if search.isPrefixOf (c :: cs) then
        repl ++ pyReplaceScan search repl ((c :: cs).drop search.length)
      else c :: pyReplaceScan search repl cs
    else c :: pyReplaceScan search repl cs
termination_by s => s.length
decreasing_by
  all_goals simp only [List.length_cons, List.length_drop]
  all_goals omega

/-- Python `s.replace(search, repl)`: an empty search string inserts the
replacement at every boundary (`"ab".replace("", "X") = "XaXbX"`). -/
def pyReplace (search repl s : List Char) : List Char :=
  if search = [] then s.foldr (fun c acc => repl ++ c :: acc) repl
  else pyReplaceScan search repl s

/-- A filter condition as assembled by the UI code (lines 203-224): a
scalar comparison with a quoted operand (line 221), a membership test
against the comma-split operand (line 214), or a `.str` method call with
the method name the source interpolates (line 218). -/
inductive Cond where
  | cmp (col op value : String)
  | mem (col : String) (neg : Bool) (items : List String)
  | strMethod (col method value : String)
deriving DecidableEq

/-- Lines 212-221: dispatch on the selected operation.  `in`/`not in`
split the operand on commas (no trimming); `contains`/`not contains`
produce a `.str` method call whose name for the negated case is the
two-word text `not contains`; every other operator keeps the raw operand,
to be embedded as a quoted string literal. -/
def buildCond (col op value : String) : Cond :=
  if op = "in" ∨ op = "not in" then
    .mem col (op = "not in") (pySplitComma value)
  else if op = "contains" ∨ op = "not contains" then
    .strMethod col (if op = "contains" then "contains" else "not contains") value
  else
    .cmp col op value

/-- Line 10-11: wrap a column name in backticks. -/
def sanitize_column_name (column_name : String) : String :=
  "`" ++ column_name ++ "`"

/-- Line 221: the predicate text for a scalar comparison,
`f"{sanitize_column_name(col)} {operation} '{value}'"`. -/
def buildCmpString (col op value : String) : String :=
  sanitize_column_name col ++ " " ++ op ++ " '" ++ value ++ "'"

/-- Split a character list at the first occurrence of `sep`; `none` when
`sep` does not occur. -/
def splitAtChar (sep : Char) : List Char → Option (List Char × List Char)
  | [] => none
  | c :: cs =>
    if c = sep then some ([], cs)
    else (splitAtChar sep cs).map (fun p => (c :: p.1, p.2))

/-- Parser for the query-language shape a scalar comparison is supposed to
take: a backtick-quoted column name, a space, an operator token, a space,
and a single-quoted string literal ending the text.  Returns the three
components when the text is well-formed. -/
def parseCmpChars : List Char → Option (String × String × String)
  | '`' :: rest =>
    match splitAtChar '`' rest with
    | none => none
    | some (colC, rest2) =>
      match rest2 with
      | ' ' :: rest3 =>
        match splitAtChar ' ' rest3 with
        | none => none
        | some (opC, rest4) =>
          match rest4 with
          | '\'' :: rest5 =>
            match splitAtChar '\'' rest5 with
            | none => none
            | some (valC, rest6) =>
              if rest6 = [] then some (String.mk colC, String.mk opC, String.mk valC)
              else none
          | _ => none
      | _ => none
  | _ => none

/-- Well-formedness check/decomposition of a built comparison predicate. -/
def parseCmpCondition (s : String) : Option (String × String × String) :=
  parseCmpChars s.data

/-- Elementwise comparison mask for a text column: the quoted operand is
compared as a Python string (`==`, `!=`, and lexicographic order). -/
def cmpMaskStr (op value : String) (vals : List String) : Except String (List Bool) :=
  if op = "==" then .ok (vals.map (fun v => v == value))
  else if op = "!=" then .ok (vals.map (fun v => v != value))
  else if op = ">" then .ok (vals.map (fun v => pyStrLtB value.data v.data))
  else if op = ">=" then .ok (vals.map (fun v => !pyStrLtB v.data value.data))
  else if op = "<" then .ok (vals.map (fun v => pyStrLtB v.data value.data))
  else if op = "<=" then .ok (vals.map (fun v => !pyStrLtB value.data v.data))
  else .error "SyntaxError"

/-- Elementwise comparison mask for a numeric column against the quoted
string operand: equality comparisons are elementwise unequal (pandas
compares a number and a string as simply different), ordered comparisons
raise `TypeError`. -/
def cmpMaskNum (op : String) (vals : List ℚ) : Except String (List Bool) :=
  if op = "==" then .ok (vals.map (fun _ => false))
  else if op = "!=" then .ok (vals.map (fun _ => true))
  else if op = ">" ∨ op = ">=" ∨ op = "<" ∨ op = "<=" then .error "TypeError"
  else .error "SyntaxError"

/-- Evaluate one condition against the table to a row mask, or the error
`DataFrame.query` raises for it (see the header comment for the mapping). -/
def evalCond (t : Table) : Cond → Except String (List Bool)
  | .cmp col op value =>
    match lookupCol t col with
    | none => .error "UndefinedVariableError"
    | some (.num vals) => cmpMaskNum op vals
    | some (.str vals) => cmpMaskStr op value vals
  | .mem col neg items =>
    match lookupCol t col with
    | none => .error "UndefinedVariableError"
    | some (.num vals) => .ok (vals.map (fun _ => neg))
    | some (.str vals) => .ok (vals.map (fun v => Bool.xor neg (items.contains v)))
  | .strMethod col method value =>
    if method ≠ "contains" then .error "SyntaxError"
    else
      match lookupCol t col with
      | none => .error "UndefinedVariableError"
      | some (.num _) => .error "AttributeError"
      | some (.str vals) => .ok (vals.map (fun v => reSearch value.data v.data))

/-- Evaluate every condition of the list, propagating the first error. -/
def evalMasks (t : Table) : List Cond → Except String (List (List Bool))
  | [] => .ok []
  | c :: cs =>
    match evalCond t c with
    | .error e => .error e
    | .ok m =>
      match evalMasks t cs with
      | .error e => .error e
      | .ok ms => .ok (m :: ms)

/-- The combine selector of line 201/228: `AND` joins with `&`, `OR`
with `|`. -/
inductive Combine where
  | and
  | or
deriving DecidableEq

/-- The boolean operator a combine mode denotes. -/
def boolOp : Combine → Bool → Bool → Bool
  | .and, a, b => a && b
  | .or, a, b => a || b

/-- Line 229: masks are joined left to right with the single chosen
operator — a flat conjunction/disjunction, no precedence grouping. -/
def combineMasks (c : Combine) : List (List Bool) → List Bool
  | [] => []
  | m :: ms => ms.foldl (fun acc m2 => List.zipWith (boolOp c) acc m2) m

/-- Keep the list entries at positions where the mask is `true`. -/
def applyMask : List Bool → List α → List α
  | b :: bs, x :: xs => (if b then [x] else []) ++ applyMask bs xs
  | _, _ => []

/-- Apply a row mask to every column of the table. -/
def filterTable (t : Table) (mask : List Bool) : Table :=
  t.map (fun p =>
    (p.1, match p.2 with
          | .num vs => ColData.num (applyMask mask vs)
          | .str vs => ColData.str (applyMask mask vs)))

/-- Lines 226-242: with no conditions nothing happens; otherwise the
joined predicate is evaluated — on success the filtered view is returned,
on any evaluation error the error is reported and the table is returned
unchanged. -/
def evaluate (t : Table) (conds : List Cond) (c : Combine) : Table × Option String :=
  if conds = [] then (t, none)
  else
    match evalMasks t conds with
    | .error e => (t, some e)
    | .ok ms => (filterTable t (combineMasks c ms), none)

/-- Lines 176-184 for a text column: convert to string (identity here),
replace literally, then report `df[column].str.count(replace_term).sum()`
— a regex count over the column after replacement. -/
def searchReplaceCol (vals : List String) (search repl : String) : List String × Nat :=
  let newVals := vals.map (fun v => String.mk (pyReplace search.data repl.data v.data))
  (newVals, (newVals.map (fun v => reCount repl.data v.data)).sum)

/-- Sort the column values ascending (what taking quantiles presupposes). -/
def sortQ (l : List ℚ) : List ℚ := l.insertionSort (· ≤ ·)

/-- Linear interpolation into a (sorted) value list at fractional
position `h`: with `i = ⌊h⌋` and `g = h - ⌊h⌋`, the value
`(1 - g) * s[i] + g * s[i + 1]` (the last entry stands in for `s[i + 1]`
when `g = 0` at the right edge). -/
def interp (s : List ℚ) (h : ℚ) : ℚ :=
  (1 - (h - (⌊h⌋ : ℚ))) * s.getD (Int.toNat ⌊h⌋) 0
    + (h - (⌊h⌋ : ℚ)) * s.getD (Int.toNat ⌊h⌋ + 1) (s.getD (Int.toNat ⌊h⌋) 0)

/-- `Series.quantile(q)` with the default linear interpolation: with the
values sorted, the quantile sits at fractional position `q * (n - 1)`. -/
def quantile (vals : List ℚ) (q : ℚ) : ℚ :=
  let s := sortQ vals
  let n := s.length
  if n = 0 then 0 else interp s (q * (n - 1))

/-- `clip(lo, hi)` on one value, as `numpy` computes it. -/
def clipQ (lo hi x : ℚ) : ℚ := min (max x lo) hi

/-- Lines 128-132 and 146: quartiles, IQR fences, and the `Cap` action
clipping the column into `[q1 - 1.5*iqr, q3 + 1.5*iqr]`. -/
def capColumn (vals : List ℚ) : List ℚ :=
  let q1 := quantile vals (1 / 4)
  let q3 := quantile vals (3 / 4)
  let iqr := q3 - q1
  let lower_bound := q1 - 3 / 2 * iqr
  let upper_bound := q3 + 3 / 2 * iqr
  vals.map (clipQ lower_bound upper_bound)

/-- The `Cap` outlier action on the table: `df[col] = df[col].clip(...)` —
only the named numeric column is rewritten. -/
def capOutliers (t : Table) (col : String) : Table :=
  t.map (fun p =>
    if p.1 = col then
      (p.1, match p.2 with
            | .num vs => ColData.num (capColumn vs)
            | c => c)
    else p)

/-! General lemmas about the evaluator. -/

/-- If some listed condition evaluates to an error, so does the whole
mask computation. -/
lemma evalMasks_error_of_mem (t : Table) (conds : List Cond) (c0 : Cond) (e : String)
    (hm : c0 ∈ conds) (he : evalCond t c0 = .error e) :
    ∃ e', evalMasks t conds = .error e' := by
  induction conds with
  | nil => cases hm
  | cons c cs ih =>
    rcases List.mem_cons.mp hm with rfl | hmem
    · exact ⟨e, by simp [evalMasks, he]⟩
    · cases hc : evalCond t c with
      | error e1 => exact ⟨e1, by simp [evalMasks, hc]⟩
      | ok m =>
        obtain ⟨e', he'⟩ := ih hmem
        exact ⟨e', by simp [evalMasks, hc, he']⟩

/-- A condition built for a column absent from the table always evaluates
to an error (an unknown-column error, or — for the broken `not contains`
method — the syntax error raised even earlier). -/
lemma evalCond_error_of_lookup_none (t : Table) (col op v : String)
    (hl : lookupCol t col = none) :
    ∃ e, evalCond t (buildCond col op v) = .error e := by
  unfold buildCond
  split
  · exact ⟨"UndefinedVariableError", by simp [evalCond, hl]⟩
  · split
    · by_cases hc : op = "contains"
      · exact ⟨"UndefinedVariableError", by simp [evalCond, hc, hl]⟩
      · exact ⟨"SyntaxError", by simp [evalCond, hc]⟩
    · exact ⟨"UndefinedVariableError", by simp [evalCond, hl]⟩

/-- Entrywise reading of a zipped mask. -/
lemma zipWith_getD (f : Bool → Bool → Bool) (m1 m2 : List Bool) (i : Nat)
    (h1 : i < m1.length) (h2 : i < m2.length) :
    (List.zipWith f m1 m2).getD i false = f (m1.getD i false) (m2.getD i false) := by
  induction m1 generalizing m2 i with
  | nil => cases h1
  | cons b bs ih =>
    cases m2 with
    | nil => cases h2
    | cons c cs =>
      cases i with
      | zero => simp
      | succ j =>
        simp only [List.zipWith_cons_cons, List.getD_cons_succ]
        exact ih cs j (by simpa using h1) (by simpa using h2)

/-- Rows surviving an AND-combined mask survive the left mask alone. -/
lemma applyMask_and_sublist {α : Type} (m1 m2 : List Bool) (xs : List α) :
    (applyMask (List.zipWith (boolOp .and) m1 m2) xs).Sublist (applyMask m1 xs) := by
  induction m1 generalizing m2 xs with
  | nil => simp [applyMask]
  | cons b bs ih =>
    cases m2 with
    | nil => simp [applyMask]
    | cons c cs =>
      cases xs with
      | nil => simp [applyMask]
      | cons x xt =>
        simp only [List.zipWith_cons_cons, applyMask]
        cases b <;> cases c <;> simp [boolOp, applyMask] <;>
          first
            | exact ih cs xt
            | exact (ih cs xt).cons x
            | exact (ih cs xt).cons₂ x

/-- Rows surviving the left mask survive the OR-combined mask (the masks
range over the same rows). -/
lemma applyMask_or_superlist {α : Type} (m1 m2 : List Bool) (xs : List α)
    (hlen : m1.length = m2.length) :
    (applyMask m1 xs).Sublist (applyMask (List.zipWith (boolOp .or) m1 m2) xs) := by
  induction m1 generalizing m2 xs with
  | nil => simp [applyMask]
  | cons b bs ih =>
    cases m2 with
    | nil => cases hlen
    | cons c cs =>
      cases xs with
      | nil => simp [applyMask]
      | cons x xt =>
        simp only [List.zipWith_cons_cons, applyMask]
        have hl : bs.length = cs.length := by simpa using hlen
        cases b <;> cases c <;> simp [boolOp, applyMask] <;>
          first
            | exact ih cs xt hl
            | exact (ih cs xt hl).cons x
            | exact (ih cs xt hl).cons₂ x

/-- `splitAtChar` recovers the part before the first separator. -/
lemma splitAtChar_append (sep : Char) (l1 l2 : List Char) (h : sep ∉ l1) :
    splitAtChar sep (l1 ++ sep :: l2) = some (l1, l2) := by
  induction l1 with
  | nil => simp [splitAtChar]
  | cons c cs ih =>
    have hc : ¬(c = sep) := fun hh => h (by simp [hh])
    have hcs : sep ∉ cs := fun hh => h (List.mem_cons_of_mem _ hh)
    simp only [List.cons_append, splitAtChar, if_neg hc]
    rw [show cs.append (sep :: l2) = cs ++ sep :: l2 from rfl, ih hcs]
    rfl

/-- The characters of a built comparison predicate. -/
lemma buildCmpString_data (col op v : String) :
    (buildCmpString col op v).data
      = '`' :: (col.data ++ '`' :: ' ' :: (op.data ++ ' ' :: '\'' :: (v.data ++ ['\'']))) := by
  simp [buildCmpString, sanitize_column_name, String.data_append]

/-- When the column name has no backtick, the operator token no space, and
the operand no quote character, the built predicate text parses back to
exactly the triple it was built from. -/
lemma parseCmp_roundtrip (col op v : String)
    (h1 : '`' ∉ col.data) (h2 : ' ' ∉ op.data) (h3 : '\'' ∉ v.data) :
    parseCmpCondition (buildCmpString col op v) = some (col, op, v) := by
  unfold parseCmpCondition
  rw [buildCmpString_data]
  show parseCmpChars ('`' :: (col.data ++ '`' :: (' ' :: (op.data ++ ' ' :: '\'' :: (v.data ++ ['\''])))))
      = some (col, op, v)
  rw [parseCmpChars]
  rw [splitAtChar_append _ _ _ h1]
  simp only
  rw [splitAtChar_append _ _ _ h2]
  simp only
  have h3' : '\'' ∉ v.data ++ [] := by simpa using h3
  have : v.data ++ ['\''] = (v.data ++ []) ++ '\'' :: ([] : List Char) := by simp
  rw [this, splitAtChar_append _ _ _ h3']
  simp

/-! Quantile lemmas. -/

/-- The sorted column really is sorted. -/
lemma sortQ_sorted (l : List ℚ) : List.Sorted (· ≤ ·) (sortQ l) :=
  List.sorted_insertionSort _ l

/-- Sorting keeps the number of values. -/
lemma sortQ_length (l : List ℚ) : (sortQ l).length = l.length :=
  List.length_insertionSort _ l

/-- Reading a sorted list at increasing indices gives increasing values. -/
lemma sorted_getD_mono (s : List ℚ) (hs : List.Sorted (· ≤ ·) s) (i j : Nat)
    (hij : i ≤ j) (hj : j < s.length) : s.getD i 0 ≤ s.getD j 0 := by
  rcases eq_or_lt_of_le hij with rfl | hlt
  · exact le_refl _
  · rw [List.getD_eq_get _ _ (lt_trans hlt hj), List.getD_eq_get _ _ hj]
    exact hs.rel_get_of_lt (Fin.mk_lt_mk.mpr hlt)

/-- In a sorted list, the interpolation upper neighbour (with the defaulted
read used by `interp`) is at least the lower one. -/
lemma getD_le_getD_succ (s : List ℚ) (hs : List.Sorted (· ≤ ·) s) (i : Nat) :
    s.getD i 0 ≤ s.getD (i + 1) (s.getD i 0) := by
  by_cases h : i + 1 < s.length
  · rw [List.getD_eq_get _ _ h, List.getD_eq_get _ _ (Nat.lt_of_succ_lt h)]
    exact hs.rel_get_of_le (Fin.mk_le_mk.mpr (Nat.le_succ i))
  · rw [List.getD_eq_default _ _ (Nat.le_of_not_lt h)]

/-- Linear interpolation into a sorted list is monotone in the position. -/
lemma interp_mono (s : List ℚ) (hs : List.Sorted (· ≤ ·) s) (h1 h2 : ℚ)
    (h0 : 0 ≤ h1) (h12 : h1 ≤ h2) (hn : h2 ≤ (s.length : ℚ) - 1) :
    interp s h1 ≤ interp s h2 := by
  have hf1 : (0 : ℤ) ≤ ⌊h1⌋ := Int.floor_nonneg.mpr h0
  have hf2 : (0 : ℤ) ≤ ⌊h2⌋ := Int.floor_nonneg.mpr (le_trans h0 h12)
  have hff : ⌊h1⌋ ≤ ⌊h2⌋ := Int.floor_le_floor h12
  have e1 : ((Int.toNat ⌊h1⌋ : ℤ)) = ⌊h1⌋ := Int.toNat_of_nonneg hf1
  have e2 : ((Int.toNat ⌊h2⌋ : ℤ)) = ⌊h2⌋ := Int.toNat_of_nonneg hf2
  have hii : Int.toNat ⌊h1⌋ ≤ Int.toNat ⌊h2⌋ := by omega
  have hlen : ⌊h2⌋ ≤ (s.length : ℤ) - 1 := by
    have hfl : ⌊h2⌋ ≤ ⌊(s.length : ℚ) - 1⌋ := Int.floor_le_floor hn
    have : ⌊(s.length : ℚ) - 1⌋ = (s.length : ℤ) - 1 := by
      rw [show ((s.length : ℚ) - 1) = ((s.length : ℤ) : ℚ) - ((1 : ℤ) : ℚ) by push_cast; ring]
      rw [← Int.cast_sub, Int.floor_intCast]
    omega
  have hi2n : Int.toNat ⌊h2⌋ < s.length := by omega
  have hg1a : (0 : ℚ) ≤ h1 - (⌊h1⌋ : ℚ) := sub_nonneg.mpr (Int.floor_le h1)
  have hg1b : h1 - (⌊h1⌋ : ℚ) < 1 := by
    have := Int.lt_floor_add_one h1
    linarith
  have hg2a : (0 : ℚ) ≤ h2 - (⌊h2⌋ : ℚ) := sub_nonneg.mpr (Int.floor_le h2)
  have hg2b : h2 - (⌊h2⌋ : ℚ) < 1 := by
    have := Int.lt_floor_add_one h2
    linarith
  have hw1 : s.getD (Int.toNat ⌊h1⌋) 0
      ≤ s.getD (Int.toNat ⌊h1⌋ + 1) (s.getD (Int.toNat ⌊h1⌋) 0) :=
    getD_le_getD_succ s hs _
  have hw2 : s.getD (Int.toNat ⌊h2⌋) 0
      ≤ s.getD (Int.toNat ⌊h2⌋ + 1) (s.getD (Int.toNat ⌊h2⌋) 0) :=
    getD_le_getD_succ s hs _
  rcases eq_or_lt_of_le hii with heq | hlt
  · have hfeq : ⌊h1⌋ = ⌊h2⌋ := by omega
    have hgg : h1 - (⌊h1⌋ : ℚ) ≤ h2 - (⌊h2⌋ : ℚ) := by
      rw [hfeq] at *
      linarith
    unfold interp
    rw [heq, hfeq] at *
    nlinarith [mul_nonneg (sub_nonneg.mpr hgg)
      (sub_nonneg.mpr (getD_le_getD_succ s hs (Int.toNat ⌊h2⌋)))]
  · have hup : interp s h1
        ≤ s.getD (Int.toNat ⌊h1⌋ + 1) (s.getD (Int.toNat ⌊h1⌋) 0) := by
      unfold interp
      nlinarith [mul_nonneg (by linarith : (0 : ℚ) ≤ 1 - (h1 - (⌊h1⌋ : ℚ)))
        (sub_nonneg.mpr hw1)]
    have hlo : s.getD (Int.toNat ⌊h2⌋) 0 ≤ interp s h2 := by
      unfold interp
      nlinarith [mul_nonneg hg2a (sub_nonneg.mpr hw2)]
    have hsucc : Int.toNat ⌊h1⌋ + 1 < s.length := by omega
    have hmid : s.getD (Int.toNat ⌊h1⌋ + 1) (s.getD (Int.toNat ⌊h1⌋) 0)
        ≤ s.getD (Int.toNat ⌊h2⌋) 0 := by
      rw [List.getD_eq_get _ _ hsucc]
      rw [← List.getD_eq_get (d := 0)]
      exact sorted_getD_mono s hs _ _ (by omega) hi2n
    linarith

/-- The quantile is monotone in the requested probability. -/
lemma quantile_mono (vals : List ℚ) (p q : ℚ) (hp : 0 ≤ p) (hpq : p ≤ q)
    (hq : q ≤ 1) : quantile vals p ≤ quantile vals q := by
  unfold quantile
  by_cases hn : (sortQ vals).length = 0
  · simp [hn]
  · have hn1 : 1 ≤ (sortQ vals).length := Nat.one_le_iff_ne_zero.mpr hn
    have hpos : (0 : ℚ) ≤ ((sortQ vals).length : ℚ) - 1 := by
      have : (1 : ℚ) ≤ ((sortQ vals).length : ℚ) := by exact_mod_cast hn1
      linarith
    simp only [hn, if_false]
    exact interp_mono _ (sortQ_sorted vals) _ _
      (mul_nonneg hp hpos)
      (mul_le_mul_of_nonneg_right hpq hpos)
      (by nlinarith)

/-- Unfolding `evaluate` when the mask computation errors. -/
lemma evaluate_of_error (t : Table) (conds : List Cond) (c : Combine) (e : String)
    (hne : conds ≠ []) (he : evalMasks t conds = .error e) :
    evaluate t conds c = (t, some e) := by
  unfold evaluate
  rw [if_neg hne, he]

/-- Unfolding `evaluate` when every mask evaluates. -/
lemma evaluate_of_ok (t : Table) (conds : List Cond) (c : Combine)
    (ms : List (List Bool)) (hne : conds ≠ []) (hok : evalMasks t conds = .ok ms) :
    evaluate t conds c = (filterTable t (combineMasks c ms), none) := by
  unfold evaluate
  rw [if_neg hne, hok]

/-! The claims. -/

/-- Claim C1, counterexample.  The claim says that on the numeric column
`age = [10, 25, 40]` the condition `(age, ge, "20")` evaluates to exactly
the rows with age 25 and 40, the operand having been parsed as a number.
In fact the builder embeds the operand as the string literal `'20'`
whatever the column type (line 221), the ordered comparison of a numeric
column with a string raises `TypeError`, and the evaluator returns the
full three-row table together with an error — not the two matching rows. -/
theorem C1_counterexample :
    evaluate [("age", ColData.num [10, 25, 40])] [buildCond "age" ">=" "20"] .and
      = ([("age", ColData.num [10, 25, 40])], some "TypeError") ∧
    ([("age", ColData.num [10, 25, 40])] : Table) ≠ [("age", ColData.num [25, 40])] := by
  decide

/-- Claim C1, amended.  The builder never parses a comparison operand as a
number: the operand is always embedded as a quoted string literal.  On a
column of declared numeric type any ordered comparison (`>`, `<`, `>=`,
`<=`) therefore fails with a `TypeError`, the error is reported, and the
table is returned unchanged — so `(age, ge, "20")` yields every row plus
an error rather than the rows with age above 20. -/
theorem C1_operand_always_string_literal (t : Table) (col v : String)
    (vals : List ℚ) (op : String) (c : Combine)
    (h : lookupCol t col = some (ColData.num vals))
    (hop : op = ">" ∨ op = "<" ∨ op = ">=" ∨ op = "<=") :
    buildCond col op v = Cond.cmp col op v ∧
    evalCond t (buildCond col op v) = .error "TypeError" ∧
    evaluate t [buildCond col op v] c = (t, some "TypeError") := by
  rcases hop with rfl | rfl | rfl | rfl <;>
    exact ⟨rfl, by simp [buildCond, evalCond, h, cmpMaskNum],
      evaluate_of_error _ _ _ _ (by simp)
        (by simp [evalMasks, buildCond, evalCond, h, cmpMaskNum])⟩

/-- Claim C1, witness for the amended theorem at the claim's own example:
numeric column `age = [10, 25, 40]`, condition `(age, >=, "20")`. -/
theorem C1_witness :
    lookupCol [("age", ColData.num [10, 25, 40])] "age" = some (ColData.num [10, 25, 40]) ∧
    (buildCond "age" ">=" "20" = Cond.cmp "age" ">=" "20" ∧
      evalCond [("age", ColData.num [10, 25, 40])] (buildCond "age" ">=" "20")
        = .error "TypeError" ∧
      evaluate [("age", ColData.num [10, 25, 40])] [buildCond "age" ">=" "20"] .and
        = ([("age", ColData.num [10, 25, 40])], some "TypeError")) :=
  ⟨by decide,
    C1_operand_always_string_literal [("age", ColData.num [10, 25, 40])] "age" "20"
      [10, 25, 40] ">=" .and (by decide) (by decide)⟩

/-- Claim C2, confirmed.  Whenever evaluation reports an error the
returned table is the input table, unchanged (never a partial filter);
whenever some condition of the list fails to evaluate, the evaluator
reports an error and returns the table unchanged; in particular a
condition naming a column absent from the table does so. -/
theorem C2_errors_leave_table_unchanged (t : Table) (conds : List Cond) (c : Combine) :
    ((evaluate t conds c).2.isSome → (evaluate t conds c).1 = t) ∧
    (∀ c0 e, c0 ∈ conds → evalCond t c0 = .error e →
      (evaluate t conds c).1 = t ∧ (evaluate t conds c).2.isSome) ∧
    (∀ col op v, buildCond col op v ∈ conds → lookupCol t col = none →
      (evaluate t conds c).1 = t ∧ (evaluate t conds c).2.isSome) := by
  have key : ∀ c0 e, c0 ∈ conds → evalCond t c0 = .error e →
      (evaluate t conds c).1 = t ∧ (evaluate t conds c).2.isSome := by
    intro c0 e hm he
    have hne : conds ≠ [] := by
      rintro rfl
      cases hm
    obtain ⟨e', he'⟩ := evalMasks_error_of_mem t conds c0 e hm he
    rw [evaluate_of_error t conds c e' hne he']
    exact ⟨rfl, rfl⟩
  refine ⟨?_, key, ?_⟩
  · unfold evaluate
    split
    · simp
    · cases hm : evalMasks t conds <;> simp
  · intro col op v hm hl
    obtain ⟨e, he⟩ := evalCond_error_of_lookup_none t col op v hl
    exact key _ e hm he

/-- Claim C2, witness: a condition on the unknown column `foo` leaves the
one-column table unchanged and reports an error. -/
theorem C2_witness :
    buildCond "foo" "==" "y" ∈ [buildCond "foo" "==" "y"] ∧
    lookupCol [("x", ColData.str ["a"])] "foo" = none ∧
    ((evaluate [("x", ColData.str ["a"])] [buildCond "foo" "==" "y"] .and).1
        = [("x", ColData.str ["a"])] ∧
      (evaluate [("x", ColData.str ["a"])] [buildCond "foo" "==" "y"] .and).2.isSome) :=
  ⟨by decide, by decide,
    (C2_errors_leave_table_unchanged [("x", ColData.str ["a"])]
        [buildCond "foo" "==" "y"] .and).2.2 "foo" "==" "y" (by decide) (by decide)⟩

/-- Claim C3, code bug.  The claim (and the spec) say `not_contains` is
the exact negation of the case-sensitive substring test, the two
partitioning the table.  The source (lines 215-218) interpolates the
method name as the two-word text `not contains`, producing the predicate
"`name`.str.not contains('Ali')" — a syntax error of the query language —
so a `not contains` filter can never succeed: it always reports an error
and returns the table unchanged, while `contains` alone works.  On
`name = ["Alice", "bob", "Alice"]` with substring `"Ali"`, `contains`
returns the two `Alice` rows but `not_contains` returns all three rows
plus an error instead of the `bob` row: the two do not partition. -/
theorem C3_not_contains_is_syntax_error :
    buildCond "name" "not contains" "Ali" = Cond.strMethod "name" "not contains" "Ali" ∧
    evaluate [("name", ColData.str ["Alice", "bob", "Alice"])]
        [buildCond "name" "not contains" "Ali"] .and
      = ([("name", ColData.str ["Alice", "bob", "Alice"])], some "SyntaxError") ∧
    evaluate [("name", ColData.str ["Alice", "bob", "Alice"])]
        [buildCond "name" "contains" "Ali"] .and
      = ([("name", ColData.str ["Alice", "Alice"])], none) := by
  decide

/-- Claim C4, counterexample.  The claim says the comma-split operand has
surrounding whitespace trimmed, so `(x, in, "a, b")` matches cells equal
to `"b"`.  The source splits with `value.split(',')` and never trims: the
operand list is `["a", " b"]`, so on the column `x = ["b", " b"]` the
condition keeps only the `" b"` row — the `"b"` row does not match. -/
theorem C4_counterexample :
    pySplitComma "a, b" = ["a", " b"] ∧
    evaluate [("x", ColData.str ["b", " b"])] [buildCond "x" "in" "a, b"] .and
      = ([("x", ColData.str [" b"])], none) := by
  decide

/-- Claim C4, amended.  For `in`/`not in` the operand string is split on
commas with NO trimming of whitespace, and membership is tested against
the untrimmed fragments (so operand `"a, b"` matches cells equal to
`" b"`, not `"b"`); a single-element operand list (no comma) is valid. -/
theorem C4_split_without_trim :
    (∀ col v : String, buildCond col "in" v = Cond.mem col false (pySplitComma v)) ∧
    (∀ col v : String, buildCond col "not in" v = Cond.mem col true (pySplitComma v)) ∧
    (∀ (t : Table) (col v : String) (vals : List String),
      lookupCol t col = some (ColData.str vals) →
      evalCond t (buildCond col "in" v)
        = .ok (vals.map (fun x => (pySplitComma v).contains x))) ∧
    pySplitComma "a, b" = ["a", " b"] ∧
    pySplitComma "abc" = ["abc"] := by
  refine ⟨fun col v => rfl, fun col v => rfl, ?_, by decide, by decide⟩
  intro t col v vals h
  simp [buildCond, evalCond, h]

/-- Claim C4, witness for the amended theorem on the column
`x = ["b", " b"]` with operand `"a, b"`. -/
theorem C4_witness :
    lookupCol [("x", ColData.str ["b", " b"])] "x" = some (ColData.str ["b", " b"]) ∧
    evalCond [("x", ColData.str ["b", " b"])] (buildCond "x" "in" "a, b")
      = .ok (["b", " b"].map (fun x => (pySplitComma "a, b").contains x)) :=
  ⟨by decide,
    C4_split_without_trim.2.2.1 [("x", ColData.str ["b", " b"])] "x" "a, b"
      ["b", " b"] (by decide)⟩

/-- Claim C5, counterexample.  The claim says every literal quote
character inside a string operand is escaped, making the built predicate
well-formed for every operand.  The source embeds the operand verbatim
between single quotes: for the operand `it's` the predicate text is
"`a` == 'it's'", whose quoting does not parse — nothing is escaped. -/
theorem C5_counterexample :
    buildCmpString "a" "==" "it's" = "`a` == 'it's'" ∧
    parseCmpCondition (buildCmpString "a" "==" "it's") = none := by
  decide

/-- Claim C5, amended.  Column references are wrapped in backticks (the
neutral quoting form), but quote characters inside string operands are
NOT escaped: the built comparison predicate is well-formed — and parses
back to exactly its column, operator and operand — whenever the column
name contains no backtick and the operand contains no single-quote
character, the operator being one of the six comparison tokens; an
operand containing a quote yields a malformed predicate. -/
theorem C5_backticks_but_no_quote_escaping (col op v : String)
    (hop : op ∈ (["==", "!=", ">", "<", ">=", "<="] : List String))
    (h1 : '`' ∉ col.data) (h3 : '\'' ∉ v.data) :
    sanitize_column_name col = "`" ++ col ++ "`" ∧
    parseCmpCondition (buildCmpString col op v) = some (col, op, v) := by
  refine ⟨rfl, ?_⟩
  have h2 : ' ' ∉ op.data := by
    fin_cases hop <;> decide
  exact parseCmp_roundtrip col op v h1 h2 h3

/-- Claim C5, witness: a column name with a space round-trips fine when
the operand has no quote. -/
theorem C5_witness :
    "==" ∈ (["==", "!=", ">", "<", ">=", "<="] : List String) ∧
    '`' ∉ "a b".data ∧ '\'' ∉ "x".data ∧
    (sanitize_column_name "a b" = "`" ++ "a b" ++ "`" ∧
      parseCmpCondition (buildCmpString "a b" "==" "x") = some ("a b", "==", "x")) :=
  ⟨by decide, by decide, by decide,
    C5_backticks_but_no_quote_escaping "a b" "==" "x" (by decide) (by decide) (by decide)⟩

/-- Claim C6, confirmed.  For every table and operand string, on any
existing column the conditions `(col, in, v)` and `(col, not_in, v)`
both evaluate, their masks have the same length, and entrywise each is
the negation of the other: every row satisfies exactly one of the two. -/
theorem C6_in_not_in_partition (t : Table) (col v : String) (cv : ColData)
    (h : lookupCol t col = some cv) :
    ∃ m m', evalCond t (buildCond col "in" v) = .ok m ∧
      evalCond t (buildCond col "not in" v) = .ok m' ∧
      m'.length = m.length ∧
      ∀ (i : Nat) (hi : i < m.length) (hi' : i < m'.length),
        m'.get ⟨i, hi'⟩ = !(m.get ⟨i, hi⟩) := by
  cases cv with
  | num vals =>
    refine ⟨List.replicate vals.length false, List.replicate vals.length true,
      ?_, ?_, by simp, ?_⟩
    · simp [buildCond, evalCond, h, List.map_const']
    · simp [buildCond, evalCond, h, List.map_const']
    · intro i hi hi'
      simp [List.get_replicate]
  | str vals =>
    refine ⟨vals.map (fun x => (pySplitComma v).contains x),
      vals.map (fun x => !((pySplitComma v).contains x)), ?_, ?_, by simp, ?_⟩
    · simp [buildCond, evalCond, h]
    · simp [buildCond, evalCond, h]
    · intro i hi hi'
      simp [List.get_map]

/-- Claim C6, witness on the column `x = ["a", "b"]` with operand
`"a, b"`. -/
theorem C6_witness :
    lookupCol [("x", ColData.str ["a", "b"])] "x" = some (ColData.str ["a", "b"]) ∧
    (∃ m m', evalCond [("x", ColData.str ["a", "b"])] (buildCond "x" "in" "a, b") = .ok m ∧
      evalCond [("x", ColData.str ["a", "b"])] (buildCond "x" "not in" "a, b") = .ok m' ∧
      m'.length = m.length ∧
      ∀ (i : Nat) (hi : i < m.length) (hi' : i < m'.length),
        m'.get ⟨i, hi'⟩ = !(m.get ⟨i, hi⟩)) :=
  ⟨by decide,
    C6_in_not_in_partition [("x", ColData.str ["a", "b"])] "x" "a, b"
      (ColData.str ["a", "b"]) (by decide)⟩

/-- Claim C7, counterexample.  The claim asserts for EVERY pair of
conditions that the AND-combination returns a subset of either condition's
own result.  When one condition fails to evaluate (here: an ordered
comparison of the numeric `age` column with a string, which the builder
always produces) the combined evaluation errors and returns the FULL
table, while the first condition alone returns one row: the combined
result contains the `"b"` row that the single-condition result lacks, so
it is not a subset. -/
theorem C7_counterexample :
    evaluate [("name", ColData.str ["a", "b"]), ("age", ColData.num [1, 2])]
        [buildCond "name" "==" "a", buildCond "age" ">=" "0"] .and
      = ([("name", ColData.str ["a", "b"]), ("age", ColData.num [1, 2])], some "TypeError") ∧
    evaluate [("name", ColData.str ["a", "b"]), ("age", ColData.num [1, 2])]
        [buildCond "name" "==" "a"] .and
      = ([("name", ColData.str ["a"]), ("age", ColData.num [1])], none) ∧
    ("b" ∈ (["a", "b"] : List String) ∧ "b" ∉ (["a"] : List String)) := by
  decide

/-- Claim C7, amended.  Provided both conditions evaluate (and their masks
range over the same rows), the conditions are joined in the order entered
by the single chosen boolean operator — a flat fold with no precedence
grouping — and then AND-combination keeps a sub-sequence of the rows each
condition keeps alone, while OR-combination keeps a super-sequence;
entrywise, a row survives AND only if it survives both, and survives OR
if it survives either. -/
theorem C7_and_subset_or_superset (t : Table) (c1 c2 : Cond) (m1 m2 : List Bool)
    (h1 : evalCond t c1 = .ok m1) (h2 : evalCond t c2 = .ok m2)
    (hlen : m1.length = m2.length) :
    evaluate t [c1, c2] .and = (filterTable t (List.zipWith (boolOp .and) m1 m2), none) ∧
    evaluate t [c1, c2] .or = (filterTable t (List.zipWith (boolOp .or) m1 m2), none) ∧
    (∀ i : Nat, i < m1.length →
      ((List.zipWith (boolOp .and) m1 m2).getD i false = true →
        m1.getD i false = true ∧ m2.getD i false = true) ∧
      ((m1.getD i false = true ∨ m2.getD i false = true) →
        (List.zipWith (boolOp .or) m1 m2).getD i false = true)) ∧
    (∀ (α : Type) (xs : List α),
      (applyMask (List.zipWith (boolOp .and) m1 m2) xs).Sublist (applyMask m1 xs) ∧
      (applyMask (List.zipWith (boolOp .and) m1 m2) xs).Sublist (applyMask m2 xs) ∧
      (applyMask m1 xs).Sublist (applyMask (List.zipWith (boolOp .or) m1 m2) xs) ∧
      (applyMask m2 xs).Sublist (applyMask (List.zipWith (boolOp .or) m1 m2) xs)) := by
  have hmasks : evalMasks t [c1, c2] = .ok [m1, m2] := by
    simp [evalMasks, h1, h2]
  have hcomm_and : List.zipWith (boolOp .and) m1 m2 = List.zipWith (boolOp .and) m2 m1 :=
    List.zipWith_comm_of_comm _ (by intro a b; cases a <;> cases b <;> rfl) m1 m2
  have hcomm_or : List.zipWith (boolOp .or) m1 m2 = List.zipWith (boolOp .or) m2 m1 :=
    List.zipWith_comm_of_comm _ (by intro a b; cases a <;> cases b <;> rfl) m1 m2
  refine ⟨?_, ?_, ?_, ?_⟩
  · rw [evaluate_of_ok t [c1, c2] .and [m1, m2] (by simp) hmasks]
    simp [combineMasks]
  · rw [evaluate_of_ok t [c1, c2] .or [m1, m2] (by simp) hmasks]
    simp [combineMasks]
  · intro i hi
    have hi2 : i < m2.length := hlen ▸ hi
    constructor
    · intro hand
      rw [zipWith_getD _ _ _ _ hi hi2] at hand
      exact ⟨by revert hand; cases m1.getD i false <;> cases m2.getD i false <;> simp [boolOp],
        by revert hand; cases m1.getD i false <;> cases m2.getD i false <;> simp [boolOp]⟩
    · intro hor
      rw [zipWith_getD _ _ _ _ hi hi2]
      rcases hor with hh | hh <;> rw [hh] <;> cases (m1.getD i false) <;>
        cases (m2.getD i false) <;> simp_all [boolOp]
  · intro α xs
    refine ⟨applyMask_and_sublist m1 m2 xs, ?_, applyMask_or_superlist m1 m2 xs hlen, ?_⟩
    · rw [hcomm_and]
      exact applyMask_and_sublist m2 m1 xs
    · rw [hcomm_or]
      exact applyMask_or_superlist m2 m1 xs hlen.symm

/-- Claim C7, witness at the column `s = ["a", "b"]` with an equality
condition and a contains condition (both masks `[true, false]`). -/
theorem C7_witness :
    evalCond [("s", ColData.str ["a", "b"])] (buildCond "s" "==" "a") = .ok [true, false] ∧
    evalCond [("s", ColData.str ["a", "b"])] (buildCond "s" "contains" "a") = .ok [true, false] ∧
    evaluate [("s", ColData.str ["a", "b"])]
        [buildCond "s" "==" "a", buildCond "s" "contains" "a"] .and
      = (filterTable [("s", ColData.str ["a", "b"])]
          (List.zipWith (boolOp .and) [true, false] [true, false]), none) :=
  ⟨by rfl, by rfl,
    (C7_and_subset_or_superset [("s", ColData.str ["a", "b"])]
        (buildCond "s" "==" "a") (buildCond "s" "contains" "a")
        [true, false] [true, false] (by rfl) (by rfl) rfl).1⟩

/-- Claim C8, confirmed.  An empty operand string is a valid value: with
the text column `c = ["", "x"]` the condition `(c, eq, "")` evaluates to
exactly the row holding the empty string (and no error is reported). -/
theorem C8_empty_operand_matches_empty_string :
    buildCond "c" "==" "" = Cond.cmp "c" "==" "" ∧
    evaluate [("c", ColData.str ["", "x"])] [buildCond "c" "==" ""] .and
      = ([("c", ColData.str [""])], none) := by
  decide

/-- A pattern free of the `.` wildcard matches exactly as a literal
prefix. -/
lemma patMatch_no_dot (p : List Char) (hp : '.' ∉ p) :
    ∀ s, patMatch p s = if p.isPrefixOf s then some (s.drop p.length) else none := by
  induction p with
  | nil => intro s; simp [patMatch, List.isPrefixOf]
  | cons q ps ih =>
    intro s
    have hq : q ≠ '.' := fun hh => hp (by simp [hh])
    have hps : '.' ∉ ps := fun hh => hp (List.mem_cons_of_mem _ hh)
    cases s with
    | nil => simp [patMatch, List.isPrefixOf]
    | cons c cs =>
      by_cases hqc : q = c
      · subst hqc
        simp only [patMatch, List.isPrefixOf, if_pos (Or.inr rfl), ih hps cs]
        simp [List.drop_succ_cons]
      · simp [patMatch, List.isPrefixOf, hq, hqc, beq_iff_eq]

/-- For a nonempty wildcard-free pattern the regex scan and the literal
scan count the same occurrences. -/
lemma reCountScan_eq_litCountScan (p : List Char) (hp : '.' ∉ p) (hne : p ≠ []) :
    ∀ (n : Nat) (s : List Char), s.length ≤ n → reCountScan p s = litCountScan p s := by
  have hplen : p.length ≠ 0 := fun h0 => hne (List.eq_nil_of_length_eq_zero h0)
  intro n
  induction n with
  | zero =>
    intro s hs
    have : s = [] := List.eq_nil_of_length_eq_zero (Nat.le_zero.mp hs)
    subst this
    simp [reCountScan, litCountScan]
  | succ k ih =>
    intro s hs
    cases s with
    | nil => simp [reCountScan, litCountScan]
    | cons c cs =>
      rw [reCountScan, litCountScan, patMatch_no_dot p hp (c :: cs)]
      by_cases hpre : p.isPrefixOf (c :: cs)
      · have hdrop : ((c :: cs).drop p.length).length < cs.length + 1 := by
          simp only [List.length_drop, List.length_cons]
          omega
        have hdrop' : ((c :: cs).drop p.length).length ≤ k := by
          simp only [List.length_drop, List.length_cons] at hdrop ⊢
          simp only [List.length_cons] at hs
          omega
        simp only [hpre, if_true, dif_pos hdrop, dif_pos hplen,
          ih _ hdrop']
      · have hcs : cs.length ≤ k := by
          simp only [List.length_cons] at hs
          omega
        simp [hpre, dif_pos hplen, ih cs hcs]

/-- For a wildcard-free pattern the regex count is the literal
occurrence count. -/
lemma reCount_eq_countOcc (p : List Char) (hp : '.' ∉ p) (s : List Char) :
    reCount p s = countOcc p s := by
  unfold reCount countOcc
  by_cases hpe : p = []
  · simp [hpe]
  · simp [hpe, reCountScan_eq_litCountScan p hp hpe s.length s (le_refl _)]

/-- Claim C9, counterexample.  The claim says the reported count equals
the number of occurrences of the replacement string present in the column
after the replacement.  The source counts with the regex-based
`str.count(replace_term)`: replacing `"a"` by `"."` in the cell `"ab"`
yields `".b"`, which holds ONE occurrence of the replacement string `"."`,
yet the reported count is 2 (the pattern `.` matches every character). -/
theorem C9_counterexample :
    (searchReplaceCol ["ab"] "a" ".").1 = [".b"] ∧
    (searchReplaceCol ["ab"] "a" ".").2 = 2 ∧
    countOcc ".".data ".b".data = 1 := by
  refine ⟨?_, ?_, ?_⟩ <;>
    simp [searchReplaceCol, pyReplace, pyReplaceScan, reCount, reCountScan,
      patMatch, countOcc, litCountScan, List.isPrefixOf]

/-- Claim C9, amended.  The reported replacement count is the number of
non-overlapping regex matches of the replacement term in the column after
replacement; when the replacement term contains no regex metacharacter
(in the modelled fragment: no `.`), this equals the number of literal
occurrences of the replacement string present after the replacement was
applied — which still is not the number of substitutions made: replacing
`"a"` by `"b"` in `["ab"]` performs one substitution (the one occurrence
of `"a"`) but reports 2. -/
theorem C9_reported_count_semantics :
    (∀ (repl : String) (s : List Char), '.' ∉ repl.data →
      reCount repl.data s = countOcc repl.data s) ∧
    (∀ (vals : List String) (search repl : String), '.' ∉ repl.data →
      (searchReplaceCol vals search repl).2
        = ((searchReplaceCol vals search repl).1.map
            (fun v => countOcc repl.data v.data)).sum) ∧
    ((searchReplaceCol ["ab"] "a" "b").1 = ["bb"] ∧
      (searchReplaceCol ["ab"] "a" "b").2 = 2 ∧
      countOcc "a".data "ab".data = 1) := by
  refine ⟨fun repl s hr => reCount_eq_countOcc repl.data hr s, ?_, ?_, ?_, ?_⟩
  · intro vals search repl hr
    have hv : ∀ v : String, reCount repl.data v.data = countOcc repl.data v.data :=
      fun v => reCount_eq_countOcc repl.data hr v.data
    simp [searchReplaceCol, hv]
  all_goals
    simp [searchReplaceCol, pyReplace, pyReplaceScan, reCount, reCountScan,
      patMatch, countOcc, litCountScan, List.isPrefixOf]

/-- Claim C9, witness for the amended theorem: replacing `"x"` by `"y"`
in `["xy"]`. -/
theorem C9_witness :
    ('.' ∉ "y".data) ∧
    (searchReplaceCol ["xy"] "x" "y").2
      = ((searchReplaceCol ["xy"] "x" "y").1.map
          (fun v => countOcc "y".data v.data)).sum :=
  ⟨by decide, C9_reported_count_semantics.2.1 ["xy"] "x" "y" (by decide)⟩

/-- The capped table holds the clipped column under the capped name. -/
lemma lookupCol_capOutliers (col : String) (vals : List ℚ) :
    ∀ t : Table, lookupCol t col = some (ColData.num vals) →
      lookupCol (capOutliers t col) col = some (ColData.num (capColumn vals)) := by
  intro t
  induction t with
  | nil => intro h; cases h
  | cons p ps ih =>
    intro h
    rw [lookupCol] at h
    unfold capOutliers
    simp only [List.map_cons]
    by_cases hc : p.1 = col
    · rw [if_pos hc] at h
      have hp2 : p.2 = ColData.num vals := Option.some.inj h
      simp only [if_pos hc]
      rw [hp2, lookupCol, if_pos hc]
    · rw [if_neg hc] at h
      simp only [if_neg hc]
      rw [lookupCol, if_neg hc]
      exact ih h

/-- Claim C10, confirmed.  Applying the `Cap` outlier action to a numeric
column clips exactly that column into
`[q1 - 1.5*iqr, q3 + 1.5*iqr]` computed from its quartiles and changes
nothing else: the column names and their order are unchanged, every
column keeps its cell count (so the number of rows is unchanged), every
other column keeps its values, the capped column is the clipped original
of the same length, and afterwards every value of the capped column lies
within the computed bounds. -/
theorem C10_cap_outliers_bounds (t : Table) (col : String) (vals : List ℚ)
    (h : lookupCol t col = some (ColData.num vals)) :
    (capOutliers t col).map Prod.fst = t.map Prod.fst ∧
    List.Forall₂ (fun p q : String × ColData => p.1 = q.1 ∧ colLen q.2 = colLen p.2)
      t (capOutliers t col) ∧
    (∀ p ∈ t, p.1 ≠ col → p ∈ capOutliers t col) ∧
    lookupCol (capOutliers t col) col = some (ColData.num (capColumn vals)) ∧
    (capColumn vals).length = vals.length ∧
    (∀ x ∈ capColumn vals,
      quantile vals (1 / 4) - 3 / 2 * (quantile vals (3 / 4) - quantile vals (1 / 4)) ≤ x ∧
      x ≤ quantile vals (3 / 4) + 3 / 2 * (quantile vals (3 / 4) - quantile vals (1 / 4))) := by
  refine ⟨?_, ?_, ?_, ?_, by simp [capColumn], ?_⟩
  · unfold capOutliers
    rw [List.map_map]
    apply List.map_congr_left
    intro p hp
    by_cases hc : p.1 = col <;> simp [hc]
  · unfold capOutliers
    rw [List.forall₂_map_right_iff, List.forall₂_same]
    intro p hp
    by_cases hc : p.1 = col
    · cases hcd : p.2 <;> simp [hc, colLen, capColumn]
    · simp [hc]
  · intro p hp hne
    unfold capOutliers
    exact List.mem_map.mpr ⟨p, hp, by simp [hne]⟩
  · exact lookupCol_capOutliers col vals t h
  · intro x hx
    have hq : quantile vals (1 / 4) ≤ quantile vals (3 / 4) :=
      quantile_mono vals _ _ (by norm_num) (by norm_num) (by norm_num)
    simp only [capColumn, List.mem_map] at hx
    obtain ⟨v, hv, rfl⟩ := hx
    constructor
    · exact le_min (le_trans (by linarith) (le_max_right v _)) (by linarith)
    · exact min_le_right _ _

/-- Claim C10, witness: capping the column `a = [1, 2, 3, 100]` of a
two-column table keeps every capped value within the IQR fences. -/
theorem C10_witness :
    lookupCol [("a", ColData.num [1, 2, 3, 100]), ("b", ColData.str ["w", "x", "y", "z"])] "a"
      = some (ColData.num [1, 2, 3, 100]) ∧
    (∀ x ∈ capColumn [1, 2, 3, 100],
      quantile [1, 2, 3, 100] (1 / 4)
          - 3 / 2 * (quantile [1, 2, 3, 100] (3 / 4) - quantile [1, 2, 3, 100] (1 / 4)) ≤ x ∧
      x ≤ quantile [1, 2, 3, 100] (3 / 4)
          + 3 / 2 * (quantile [1, 2, 3, 100] (3 / 4) - quantile [1, 2, 3, 100] (1 / 4))) :=
  ⟨by decide,
    (C10_cap_outliers_bounds
        [("a", ColData.num [1, 2, 3, 100]), ("b", ColData.str ["w", "x", "y", "z"])]
        "a" [1, 2, 3, 100] (by decide)).2.2.2.2.2⟩

end DataCleaning
